import Mathlib

/-!
Verification of the game-server-base dispatch core.

This file gives a shallow embedding of the dispatch machinery of the
repository and proves properties of it:

* `gsb/intercept.py`: `Menu.match`, `Reader.feed` / `Reader.get_buffer`,
  `Intercept.feed`.
* `gsb/parser.py`: the candidate loop of `Parser.handle_line`, and
  `Parser.explain`.
* `gsb/server.py`: `Server.handle_line` (abort / interceptor / command
  branches), `Server.match_commands`, `Server.broadcast`,
  `Server.format_text`.

Python-specific primitives (`int(...)`, negative list indexing,
`str.strip`, `%`-formatting with `%s` placeholders) are embedded
explicitly.  Handler functions, permission predicates and argument
regular expressions are arbitrary user code; for one fixed input line a
handler either returns normally, raises `DontStopException`, or raises
some other exception, and a predicate / regexp match has a fixed boolean
outcome, so those outcomes are recorded as data on the embedded command.
-/

namespace GSB

/-! ## Python string and list primitives -/

/-- Lowering, as `str.lower` (the inputs of interest are ASCII). -/
def pyLower (s : String) : String := String.mk (s.toList.map Char.toLower)

/-- Python `s.startswith(t)`. -/
def pyStartsWith (s t : String) : Bool := t.toList.isPrefixOf s.toList

/-- Numeric value of a digit list (most significant first). -/
def digitsVal (cs : List Char) : Nat :=
  cs.foldl (fun n c => 10 * n + (c.toNat - 48)) 0

/-- Drop ASCII whitespace from both ends of a character list. -/
def stripWs (cs : List Char) : List Char :=
  ((cs.dropWhile Char.isWhitespace).reverse.dropWhile Char.isWhitespace).reverse

/-- Python `int(s)`: optional surrounding whitespace, optional sign, a
nonempty run of digits; `none` models a raised `ValueError`. -/
def pyInt (s : String) : Option Int :=
  match stripWs s.toList with
  | [] => none
  | c :: cs =>
    if c = '+' then
      if cs ≠ [] ∧ cs.all Char.isDigit then some (digitsVal cs) else none
    else if c = '-' then
      if cs ≠ [] ∧ cs.all Char.isDigit then some (-(digitsVal cs : Int)) else none
    else
      if (c :: cs).all Char.isDigit then some (digitsVal (c :: cs)) else none

/-- Python list subscription `l[i]` with negative indexing; `none`
models a raised `IndexError`.  Returns the 0-based position that is
read. -/
def pyIdx (len : Nat) (i : Int) : Option Nat :=
  if 0 ≤ i then
    if i.toNat < len then some i.toNat else none
  else
    if (-i).toNat ≤ len then some (len - (-i).toNat) else none

/-- Python `s.strip(backslash-n)`: remove newline characters from both
ends of a string (`Reader.get_buffer`). -/
def stripNl (s : String) : String :=
  String.mk (((s.toList.dropWhile (fun c => c = '\n')).reverse.dropWhile
    (fun c => c = '\n')).reverse)

/-! ## Menu.match (gsb/intercept.py)

A menu item is identified by its 0-based position in `items`; only the
item label takes part in matching, so `items` is the list of labels.
The outcome records which path `Menu.match` takes: `selected i` means
the item at position `i` is returned (its `func` is then called by
`Menu.feed`), `noMatches` / `multipleMatches` mean the corresponding
hook is invoked and no item is returned, and `crash` models the
uncaught `IndexError` of `self.items[-1]` on an empty menu. -/

inductive MenuOutcome
  | selected (i : Nat)
  | noMatches
  | multipleMatches (js : List Nat)
  | crash
  deriving DecidableEq, Repr

/-- Positions of the items whose lowered label starts with `text`
(the `item.text.lower().startswith(text)` collection loop, guarded by
`if text:`). -/
def prefixMatchIdxs (items : List String) (text : String) : List Nat :=
  if text = "" then []
  else (items.enum.filter (fun p => pyStartsWith (pyLower p.2) text)).map Prod.fst

/-- The body of the `except (ValueError, IndexError)` branch of
`Menu.match`: prefix collection, then the zero / one / many split. -/
def menuPrefixResolve (items : List String) (text : String) : MenuOutcome :=
  match prefixMatchIdxs items text with
  | [] => MenuOutcome.noMatches
  | [j] => MenuOutcome.selected j
  | js => MenuOutcome.multipleMatches js

/-- `Menu.match` on the already-lowered text. -/
def menuMatchText (items : List String) (text : String) : MenuOutcome :=
  if text = "$" then
    match items.length with
    | 0 => MenuOutcome.crash
    | Nat.succ n => MenuOutcome.selected n
  else
    match pyInt text with
    | some num =>
      match pyIdx items.length (if 0 < num then num - 1 else num) with
      | some j => MenuOutcome.selected j
      | none => menuPrefixResolve items text
    | none => menuPrefixResolve items text

/-- `Menu.match`: lower the caller's text, then resolve. -/
def menuMatch (items : List String) (raw : String) : MenuOutcome :=
  menuMatchText items (pyLower raw)

/-- The menu of the specification's worked example. -/
def exItems : List String := ["First Thing", "second Thing", "Third Thing"]

/-! ## Reader.feed / Reader.get_buffer (gsb/intercept.py)

The reader state is its `buffer` string together with the list of
texts with which the `done` callback has been invoked so far (so the
number of invocations and the `caller.text` at each are observable).
The `before_line` / `after_line` hooks are `None` here, as in the
defaults, so their `send` calls are skipped. -/

structure ReaderSt where
  buffer : String
  doneTexts : List String
  deriving DecidableEq, Repr

/-- `Reader.get_buffer`: the buffer with newline characters stripped
from both ends. -/
def getBuffer (st : ReaderSt) : String := stripNl st.buffer

/-- `Reader.feed`, for a reader whose `persistent` attribute is
`persistent` (the multiline flag): append the line to the buffer as
`"%s\n%s" % (buffer, line)` unless it is the terminating full stop of a
persistent reader, set the caller's text to `get_buffer()`, and call
`done` when finished. -/
def readerFeed (persistent : Bool) (st : ReaderSt) (line : String) : ReaderSt :=
  let buf := if ¬ persistent ∨ line ≠ "." then st.buffer ++ "\n" ++ line else st.buffer
  let text := stripNl buf
  if ¬ persistent ∨ line = "." then
    { buffer := buf, doneTexts := st.doneTexts ++ [text] }
  else
    { buffer := buf, doneTexts := st.doneTexts }

/-- Feed a sequence of lines to a fresh reader. -/
def readerRun (persistent : Bool) (lines : List String) : ReaderSt :=
  lines.foldl (readerFeed persistent) { buffer := "", doneTexts := [] }

/-! ## The dispatch loops (gsb/parser.py and gsb/server.py)

For one fixed input line, a registered command contributes: the boolean
outcome of its permission predicate, the outcome of matching its
argument pattern against the remainder (`none` when `args_regexp is
None`, otherwise `some` of the boolean match result), and its handler's
behaviour when invoked with this caller. -/

/-- What a handler does when invoked: return normally, raise
`DontStopException`, or raise any other exception. -/
inductive Behavior
  | normal
  | dontStop
  | raises
  deriving DecidableEq, Repr

/-- A command of `Parser.commands` as it behaves on the fixed line. -/
structure PCommand where
  names : List String
  description : String
  helpText : String
  allowed : Bool
  pattern : Option Bool
  behavior : Behavior
  deriving DecidableEq, Repr

/-- Observable effects of one dispatch call.  Indices identify the
candidate command (its position in the candidate list). -/
inductive Event
  | notifyE (text : String)
  | explainE (i : Nat)
  | invokeE (i : Nat)
  | excE (i : Nat)
  | onErrorE (i : Nat)
  | huhE
  | explainInterceptE
  | feedE
  deriving DecidableEq, Repr

/-- The candidate loop of `Parser.handle_line` over
`self.get_commands(command)`, with `allow_huh` true.  `idx` is the
position of the current candidate and `matched` is the running
`commands` counter.  `explainE` is the `self.explain(cmd, ...)` call
followed by `break`; a handler exception sets `caller.exception`
(`excE`) and invokes `self.on_error` (`onErrorE`), after which the
`for` loop proceeds with the next candidate; the `for`/`else` clause
calls `self.huh` only when the loop was not broken and `commands` is
zero. -/
def parserLoop : List PCommand → Nat → Nat → List Event
  | [], _, matched => if matched = 0 then [Event.huhE] else []
  | c :: rest, idx, matched =>
    if c.allowed then
      match c.pattern with
      | some false => [Event.explainE idx]
      | _ =>
        match c.behavior with
        | Behavior.normal => [Event.invokeE idx]
        | Behavior.dontStop =>
          Event.invokeE idx :: parserLoop rest (idx + 1) (matched + 1)
        | Behavior.raises =>
          Event.invokeE idx :: Event.excE idx :: Event.onErrorE idx ::
            parserLoop rest (idx + 1) (matched + 1)
    else parserLoop rest (idx + 1) matched

/-- Dispatch of one line by `Parser.handle_line`, starting the loop on
the bucket of candidates registered under the line's command name. -/
def parserHandleLine (cmds : List PCommand) : List Event :=
  parserLoop cmds 0 0

/-- `Parser.explain`: the lines notified to the connection — the joined
names, one substitution explanation per matching entry, the
description, and the help text. -/
def parserExplain (subs : List (String × String)) (sep : String)
    (c : PCommand) : List String :=
  (String.intercalate " or " c.names ++ ":") ::
    ((subs.filter (fun kv => kv.2 ∈ c.names)).map
      (fun kv =>
        "Instead of typing \"" ++ kv.2 ++ sep ++ "\", you can type " ++
          kv.1 ++ ".")) ++
    [c.description, c.helpText]

/-- A command of `Server.commands` as it behaves on the fixed line:
the outcome of `search(cmd.regexp, line)`, the outcome of
`cmd.allowed is None or cmd.allowed(caller)`, and the handler's
behaviour. -/
structure SCommand where
  reMatches : Bool
  allowed : Bool
  behavior : Behavior
  deriving DecidableEq, Repr

/-- `Server.match_commands`: the commands whose regexp matches the line
and whose permission check passes, paired with their positions. -/
def matchCommands (cmds : List SCommand) : List (Nat × SCommand) :=
  cmds.enum.filter (fun p => p.2.reMatches ∧ p.2.allowed)

/-- The candidate loop of the command branch of `Server.handle_line`:
invoke each matching candidate; `DontStopException` continues with the
next candidate; any other exception is captured on the caller (`excE`),
reported through `self.on_error` (`onErrorE`) and then the `break`
after the `try` statement ends the loop; the `for`/`else` clause calls
`self.huh` when the loop was never broken. -/
def serverLoop : List (Nat × SCommand) → List Event
  | [] => [Event.huhE]
  | (i, c) :: rest =>
    match c.behavior with
    | Behavior.normal => [Event.invokeE i]
    | Behavior.dontStop => Event.invokeE i :: serverLoop rest
    | Behavior.raises => [Event.invokeE i, Event.excE i, Event.onErrorE i]

/-- The command branch of `Server.handle_line`. -/
def serverDispatch (cmds : List SCommand) : List Event :=
  serverLoop (matchCommands cmds)

/-- Count of `on_error` invocations in an event list. -/
def countOnError (evs : List Event) : Nat :=
  (evs.filter (fun e =>
    match e with
    | Event.onErrorE _ => true
    | _ => false)).length

/-! ## Server.handle_line: abort and interceptor branches (gsb/server.py) -/

/-- An interceptor as `Server.handle_line` and the base
`Intercept.feed` see it: the `persistent` flag, the optional `no_abort`
message and the `aborted` message.  (`no_abort` is kept as an optional
string; the code only ever passes it to `notify`.) -/
structure InterceptM where
  persistent : Bool
  noAbort : Option String
  aborted : String
  deriving DecidableEq, Repr

/-- Per-connection dispatch state: the `connection.intercept`
attribute. -/
structure Session where
  intercept : Option InterceptM
  deriving DecidableEq, Repr

/-- Python truthiness of an optional string (`if
connection.intercept.no_abort:`): `None` and the empty string are
falsy. -/
def truthy : Option String → Bool
  | none => false
  | some s => s != ""

/-- The base `Intercept.feed`: reattach the interceptor when
`persistent` is set; no output. -/
def baseFeed (i : InterceptM) (sess : Session) : Session × List Event :=
  (if i.persistent then { intercept := some i } else sess, [])

/-- `Server.handle_line` with the default `on_command` (which returns
`True`).  `feedImpl` is the `feed` method of the attached interceptor
class, called on the session as it stands at the call (the dispatcher
has already assigned `connection.intercept = None`); for the base class
it is `baseFeed`.  Returns the session after the call and the events it
produced. -/
def serverHandleLine (abortCmd : String) (cmds : List SCommand)
    (sess : Session) (line : String)
    (feedImpl : InterceptM → Session → Session × List Event) :
    Session × List Event :=
  match sess.intercept with
  | some i =>
    if line = abortCmd then
      if truthy i.noAbort then
        (sess, [Event.notifyE (i.noAbort.getD ""), Event.explainInterceptE])
      else
        ({ intercept := none }, [Event.notifyE i.aborted])
    else
      let r := feedImpl i { intercept := none }
      (r.1, Event.feedE :: r.2)
  | none => (sess, serverDispatch cmds)

/-! ## Server.broadcast (gsb/server.py)

A connection is its identifier plus the state of its transport.  Per
the specification, `notify` is a fire-and-forget write request: the
transport drops a write to a connection that has disconnected instead
of raising, so a dead connection yields no delivered write but does not
interrupt anything. -/

structure Conn where
  cid : Nat
  alive : Bool
  deriving DecidableEq, Repr

/-- `%`-formatting with `%s` placeholders, consuming arguments left to
right (the `%` operator is a Python builtin; this models the uses the
repository makes of it). -/
def pyFormatChars : List Char → List String → List Char
  | [], _ => []
  | '%' :: 's' :: rest, a :: args => a.toList ++ pyFormatChars rest args
  | c :: rest, args => c :: pyFormatChars rest args

/-- `Server.format_text` for positional arguments: apply `%`-formatting
once when `args` is nonempty. -/
def formatText (text : String) (args : List String) : String :=
  if args = [] then text else String.mk (pyFormatChars text.toList args)

/-- The delivered writes of `Server.notify` with plain text: `sendLine`
reaches the transport, which drops the write if the connection is no
longer alive. -/
def notifyWrites (c : Conn) (t : String) : List (Nat × String) :=
  if c.alive then [(c.cid, t)] else []

/-- `Server.broadcast`: format the text once, then call `notify` on
every connection in `self.connections`.  The first component lists the
connections `notify` is called on (in order); the second lists the
delivered writes. -/
def broadcast (conns : List Conn) (text : String) (args : List String) :
    List Nat × List (Nat × String) :=
  let t := formatText text args
  (conns.map Conn.cid, (conns.map (fun c => notifyWrites c t)).flatten)

/-! ## Theorems -/

/-- C6: feeding the lines 1, 2 and then the done marker full stop to a
multiline (persistent) `Reader` invokes the `done` callback exactly
once, with the caller's text equal to the joined buffer consisting of
line 1, a newline separator, and line 2; and the terminating line is
not appended to the buffer (the buffer is unchanged by the marker). -/
theorem reader_multiline_run :
    readerRun true ["1", "2", "."] =
      { buffer := "\n1\n2", doneTexts := ["1\n2"] } ∧
    (readerRun true ["1", "2", "."]).buffer = (readerRun true ["1", "2"]).buffer :=
  ⟨rfl, rfl⟩

/-- C7 counterexample: a multiline `Reader` fed the lines 1, empty,
and then the done marker invokes `done` with text just line 1: the
trailing empty line is not preserved as an empty segment (the text
would have to end with a newline separator), because `get_buffer`
strips newline characters from both ends of the buffer. -/
theorem reader_trailing_empty_counterexample :
    (readerRun true ["1", "", "."]).doneTexts = ["1"] ∧
    (readerRun true ["1", "", "."]).doneTexts ≠ ["1\n"] :=
  ⟨rfl, by decide⟩

/-- C7 (amended): an empty input line is appended to the buffer like
any other line (the buffer grows by exactly one separator), and it is
preserved as an empty segment in the final text when it is interior;
but `get_buffer` strips newline characters from both ends of the
buffer, so an empty first or last accumulated line is dropped from the
final text passed to `done`. -/
theorem reader_empty_line_behavior :
    (∀ st : ReaderSt, (readerFeed true st "").buffer = st.buffer ++ "\n") ∧
    (readerRun true ["1", "", "2", "."]).doneTexts = ["1\n\n2"] ∧
    (readerRun true ["", "1", "."]).doneTexts = ["1"] ∧
    (readerRun true ["1", "", "."]).doneTexts = ["1"] := by
  refine ⟨fun st => ?_, rfl, rfl, rfl⟩
  show st.buffer ++ "\n" ++ "" = st.buffer ++ "\n"
  exact String.append_empty _

/-- C4 counterexample: on the specification's example menu, the input
line 0 does not trigger the no-match path: `Menu.match` parses it as
the integer 0, which is not decremented (only strictly positive values
are), and `self.items[0]` returns the first item. -/
theorem menu_zero_counterexample :
    menuMatch exItems "0" = MenuOutcome.selected 0 ∧
    menuMatch exItems "0" ≠ MenuOutcome.noMatches :=
  ⟨by decide, by decide⟩

/-- C1 counterexample: in `Parser.handle_line`, two candidates under
one name whose handlers both raise produce two `on_error` invocations
for a single line, and the second candidate is invoked after the first
one failed — the `except Exception` arm of the loop body has no
`break`, so dispatch falls through to the next candidate. -/
theorem parser_error_counterexample :
    countOnError (parserHandleLine
      [⟨[], "", "", true, none, Behavior.raises⟩,
       ⟨[], "", "", true, none, Behavior.raises⟩]) = 2 ∧
    Event.invokeE 1 ∈ parserHandleLine
      [⟨[], "", "", true, none, Behavior.raises⟩,
       ⟨[], "", "", true, none, Behavior.raises⟩] :=
  ⟨rfl, by decide⟩

/-- C2 counterexample: in `Parser.handle_line`, a single candidate
whose handler raises `DontStopException` leaves the `commands` counter
at 1 (it is incremented before the handler runs), so the `for`/`else`
clause does not call `self.huh`: no NoMatch fallback notice is issued
even though every candidate declined. -/
theorem parser_dontstop_counterexample :
    parserHandleLine [⟨[], "", "", true, none, Behavior.dontStop⟩] =
      [Event.invokeE 0] ∧
    Event.huhE ∉ parserHandleLine [⟨[], "", "", true, none, Behavior.dontStop⟩] :=
  ⟨rfl, by decide⟩

/-- C1 (amended): when a reached candidate's handler raises an
exception other than `DontStopException`, the exception is caught at
the dispatch boundary in both dispatchers — it is recorded on the
caller and reported through `on_error`, and never propagates.  In
`Server.handle_line` this ends dispatch of the line with exactly one
`on_error` invocation and no further candidate tried; in
`Parser.handle_line` the loop instead proceeds to the next candidate
after the `on_error` call, so dispatch of the line continues (and each
further failing candidate triggers its own `on_error`). -/
theorem handler_error_dispatch :
    (∀ (i : Nat) (c : SCommand) (rest : List (Nat × SCommand)),
      c.behavior = Behavior.raises →
      serverLoop ((i, c) :: rest) =
        [Event.invokeE i, Event.excE i, Event.onErrorE i]) ∧
    (∀ (c : PCommand) (rest : List PCommand) (idx matched : Nat),
      c.allowed = true → c.pattern ≠ some false →
      c.behavior = Behavior.raises →
      parserLoop (c :: rest) idx matched =
        Event.invokeE idx :: Event.excE idx :: Event.onErrorE idx ::
          parserLoop rest (idx + 1) (matched + 1)) := by
  constructor
  · intro i c rest hb
    simp [serverLoop, hb]
  · intro c rest idx matched ha hp hb
    rcases hpat : c.pattern with _ | b
    · simp [parserLoop, ha, hpat, hb]
    · cases b
      · exact absurd hpat hp
      · simp [parserLoop, ha, hpat, hb]

/-- C1 witness: the amended statement at a one-candidate server
dispatch and a one-candidate parser dispatch, each with a raising
handler. -/
theorem handler_error_dispatch_witness :
    serverLoop [(0, (⟨true, true, Behavior.raises⟩ : SCommand))] =
      [Event.invokeE 0, Event.excE 0, Event.onErrorE 0] ∧
    parserLoop [(⟨[], "d", "h", true, none, Behavior.raises⟩ : PCommand)] 0 0 =
      Event.invokeE 0 :: Event.excE 0 :: Event.onErrorE 0 :: parserLoop [] 1 1 :=
  ⟨handler_error_dispatch.1 0 _ [] rfl,
   handler_error_dispatch.2 _ [] 0 0 rfl (by decide) rfl⟩

/-- C2 (amended): a candidate handler that raises `DontStopException`
causes the next candidate in registration order to be tried, in both
dispatchers.  When every matching candidate declines this way,
`Server.handle_line` invokes the `huh` NoMatch fallback, but
`Parser.handle_line` does not: its `commands` counter was incremented
for each declined candidate, so the `for`/`else` clause skips
`self.huh` (the fallback fires only when no candidate was allowed and
pattern-matched at all). -/
theorem continue_chain_fallback :
    (∀ (c : PCommand) (rest : List PCommand) (idx matched : Nat),
      c.allowed = true → c.pattern ≠ some false →
      c.behavior = Behavior.dontStop →
      parserLoop (c :: rest) idx matched =
        Event.invokeE idx :: parserLoop rest (idx + 1) (matched + 1)) ∧
    (∀ l : List (Nat × SCommand),
      (∀ p ∈ l, (Prod.snd p).behavior = Behavior.dontStop) →
      serverLoop l = l.map (fun p => Event.invokeE p.1) ++ [Event.huhE]) ∧
    (∀ (cmds : List PCommand) (idx matched : Nat), cmds ≠ [] →
      (∀ c ∈ cmds, c.allowed = true ∧ c.pattern ≠ some false ∧
        c.behavior = Behavior.dontStop) →
      Event.huhE ∉ parserLoop cmds idx matched) := by
  have hstep : ∀ (c : PCommand) (rest : List PCommand) (idx matched : Nat),
      c.allowed = true → c.pattern ≠ some false →
      c.behavior = Behavior.dontStop →
      parserLoop (c :: rest) idx matched =
        Event.invokeE idx :: parserLoop rest (idx + 1) (matched + 1) := by
    intro c rest idx matched ha hp hb
    rcases hpat : c.pattern with _ | b
    · simp [parserLoop, ha, hpat, hb]
    · cases b
      · exact absurd hpat hp
      · simp [parserLoop, ha, hpat, hb]
  refine ⟨hstep, ?_, ?_⟩
  · intro l hl
    induction l with
    | nil => simp [serverLoop]
    | cons p rest ih =>
      obtain ⟨i, c⟩ := p
      have hb : c.behavior = Behavior.dontStop := hl (i, c) (by simp)
      rw [serverLoop, hb]
      simp only [List.map_cons, List.cons_append]
      rw [ih (fun q hq => hl q (by simp [hq]))]
  · have haux : ∀ cmds : List PCommand,
        (∀ c ∈ cmds, c.allowed = true ∧ c.pattern ≠ some false ∧
          c.behavior = Behavior.dontStop) →
        ∀ idx matched : Nat, cmds ≠ [] →
        Event.huhE ∉ parserLoop cmds idx matched := by
      intro cmds
      induction cmds with
      | nil => intro _ idx matched hne; exact absurd rfl hne
      | cons c rest ih =>
        intro hall idx matched _
        obtain ⟨ha, hp, hb⟩ := hall c (by simp)
        rw [hstep c rest idx matched ha hp hb]
        intro hmem
        rcases List.mem_cons.mp hmem with h | h
        · exact Event.noConfusion h
        · rcases rest with _ | ⟨d, rest2⟩
          · rw [parserLoop] at h
            simp at h
          · exact ih (fun x hx => hall x (List.mem_cons_of_mem c hx))
              (idx + 1) (matched + 1) (by simp) h
    exact fun cmds idx matched hne hall => haux cmds hall idx matched hne

/-- C2 witness: the amended statement at concrete inputs — a declining
parser candidate hands over to the rest of the list, a server dispatch
whose single matching candidate declines ends in `huh`, and a parser
dispatch whose single candidate declines emits no `huh`. -/
theorem continue_chain_fallback_witness :
    parserLoop [(⟨[], "d", "h", true, none, Behavior.dontStop⟩ : PCommand)] 0 0 =
      Event.invokeE 0 :: parserLoop [] 1 1 ∧
    serverLoop [(0, (⟨true, true, Behavior.dontStop⟩ : SCommand))] =
      [Event.invokeE 0, Event.huhE] ∧
    Event.huhE ∉
      parserLoop [(⟨[], "d", "h", true, none, Behavior.dontStop⟩ : PCommand)] 0 0 :=
  ⟨continue_chain_fallback.1 _ [] 0 0 rfl (by decide) rfl,
   continue_chain_fallback.2.1 [(0, ⟨true, true, Behavior.dontStop⟩)]
     (by intro p hp; simp at hp; rw [hp]),
   continue_chain_fallback.2.2 [⟨[], "d", "h", true, none, Behavior.dontStop⟩] 0 0
     (by decide) (by intro c hc; simp at hc; rw [hc]; exact ⟨rfl, by decide, rfl⟩)⟩

/-- C8: in `Parser.handle_line`, when a candidate is allowed and its
argument pattern is set but fails to match the remainder, the
dispatcher calls `self.explain` for that command and breaks out of the
loop: no later candidate is evaluated and the `for`/`else` clause
(hence the `huh` NoMatch fallback) is skipped.  `Parser.explain`
notifies the connection with, among others, the command's description
and help text. -/
theorem pattern_mismatch_shortcircuit :
    ∀ (c : PCommand) (rest : List PCommand) (idx matched : Nat)
      (subs : List (String × String)) (sep : String),
      c.allowed = true → c.pattern = some false →
      parserLoop (c :: rest) idx matched = [Event.explainE idx] ∧
      Event.huhE ∉ parserLoop (c :: rest) idx matched ∧
      c.description ∈ parserExplain subs sep c ∧
      c.helpText ∈ parserExplain subs sep c := by
  intro c rest idx matched subs sep ha hp
  have hloop : parserLoop (c :: rest) idx matched = [Event.explainE idx] := by
    simp [parserLoop, ha, hp]
  refine ⟨hloop, ?_, ?_, ?_⟩
  · rw [hloop]; simp
  · simp [parserExplain]
  · simp [parserExplain]

/-- C3 counterexample: an interceptor whose `no_abort` is set to the
empty string is detached by the abort command even though `no_abort`
is set: `Server.handle_line` tests `no_abort` for truthiness, the
empty string is falsy, so the abort branch notifies the `aborted`
message and assigns `None` — the interceptor does not stay attached
and its prompt is not re-displayed. -/
theorem abort_empty_noabort_counterexample :
    (⟨false, some "", "Aborted."⟩ : InterceptM).noAbort ≠ none ∧
    serverHandleLine "@abort" [] ⟨some ⟨false, some "", "Aborted."⟩⟩ "@abort"
      baseFeed = (⟨none⟩, [Event.notifyE "Aborted."]) :=
  ⟨by decide, rfl⟩

/-- C3 (amended): when the abort command arrives while an interceptor
is attached: if its `no_abort` is set to a non-empty (truthy) message,
the connection is notified with that message, the interceptor's
`explain` re-displays its prompt, and the interceptor stays attached;
otherwise (`no_abort` unset) the connection is notified with the
`aborted` message, the interceptor is detached, and the session is
back to normal dispatch. -/
theorem abort_interceptor_behavior :
    ∀ (abortCmd : String) (cmds : List SCommand) (sess : Session)
      (i : InterceptM)
      (feedImpl : InterceptM → Session → Session × List Event),
      sess.intercept = some i →
      (∀ msg : String, i.noAbort = some msg → msg ≠ "" →
        serverHandleLine abortCmd cmds sess abortCmd feedImpl =
          (sess, [Event.notifyE msg, Event.explainInterceptE])) ∧
      (i.noAbort = none →
        serverHandleLine abortCmd cmds sess abortCmd feedImpl =
          (⟨none⟩, [Event.notifyE i.aborted])) := by
  intro abortCmd cmds sess i feedImpl hsess
  constructor
  · intro msg hmsg hne
    simp [serverHandleLine, hsess, truthy, hmsg, hne]
  · intro hnone
    simp [serverHandleLine, hsess, truthy, hnone]

/-- C3 witness: the amended statement at a concrete non-abortable
interceptor (both conjuncts, the second at a second session holding an
abortable interceptor). -/
theorem abort_interceptor_behavior_witness :
    serverHandleLine "@abort" [] ⟨some ⟨false, some "No way.", "Aborted."⟩⟩
      "@abort" baseFeed =
      (⟨some ⟨false, some "No way.", "Aborted."⟩⟩,
        [Event.notifyE "No way.", Event.explainInterceptE]) ∧
    serverHandleLine "@abort" [] ⟨some ⟨false, none, "Aborted."⟩⟩
      "@abort" baseFeed = (⟨none⟩, [Event.notifyE "Aborted."]) :=
  ⟨(abort_interceptor_behavior "@abort" [] _ _ baseFeed rfl).1 "No way."
      rfl (by decide),
   (abort_interceptor_behavior "@abort" [] _ _ baseFeed rfl).2 rfl⟩

/-- C10: on the non-abort interceptor path, `Server.handle_line`
assigns `connection.intercept = None` before calling the interceptor's
`feed`, so the whole outcome is the interceptor's `feed` applied to
the session with the interceptor cleared; with the base
`Intercept.feed` the session therefore ends the call with no
interceptor unless the interceptor is persistent, in which case the
base `feed` reassigns it. -/
theorem intercept_cleared_before_feed :
    ∀ (abortCmd : String) (cmds : List SCommand) (sess : Session)
      (line : String) (i : InterceptM)
      (feedImpl : InterceptM → Session → Session × List Event),
      sess.intercept = some i → line ≠ abortCmd →
      (serverHandleLine abortCmd cmds sess line feedImpl =
        ((feedImpl i ⟨none⟩).1, Event.feedE :: (feedImpl i ⟨none⟩).2)) ∧
      ((serverHandleLine abortCmd cmds sess line baseFeed).1.intercept =
        if i.persistent then some i else none) := by
  intro abortCmd cmds sess line i feedImpl hsess hline
  have hmain : ∀ f : InterceptM → Session → Session × List Event,
      serverHandleLine abortCmd cmds sess line f =
        ((f i ⟨none⟩).1, Event.feedE :: (f i ⟨none⟩).2) := by
    intro f
    simp [serverHandleLine, hsess, hline]
  refine ⟨hmain feedImpl, ?_⟩
  rw [hmain baseFeed]
  by_cases hp : i.persistent
  · simp [baseFeed, hp]
  · simp [baseFeed, hp]

/-- C10 witness: the statement at a persistent and at a non-persistent
interceptor fed a non-abort line. -/
theorem intercept_cleared_before_feed_witness :
    (serverHandleLine "@abort" [] ⟨some ⟨true, none, "Aborted."⟩⟩ "hello"
      baseFeed).1.intercept = some ⟨true, none, "Aborted."⟩ ∧
    (serverHandleLine "@abort" [] ⟨some ⟨false, none, "Aborted."⟩⟩ "hello"
      baseFeed).1.intercept = none := by
  constructor
  · have h := (intercept_cleared_before_feed "@abort" [] _ "hello"
      (⟨true, none, "Aborted."⟩ : InterceptM) baseFeed rfl (by decide)).2
    rw [h]
    rfl
  · have h := (intercept_cleared_before_feed "@abort" [] _ "hello"
      (⟨false, none, "Aborted."⟩ : InterceptM) baseFeed rfl (by decide)).2
    rw [h]
    rfl

/-- C9: `broadcast` formats the text once, calls `notify` on every
connection in the connection list at the time of the call, and the
delivered writes are exactly one copy of the same formatted text per
still-alive connection — a dropped write to a disconnected connection
does not prevent delivery to the remaining ones. -/
theorem broadcast_delivery :
    ∀ (conns : List Conn) (text : String) (args : List String),
      (broadcast conns text args).1 = conns.map Conn.cid ∧
      (broadcast conns text args).2 =
        (conns.filter (fun c => c.alive)).map
          (fun c => (c.cid, formatText text args)) ∧
      (∀ c : Conn, c ∈ conns → c.alive = true →
        (c.cid, formatText text args) ∈ (broadcast conns text args).2) := by
  intro conns text args
  have hflat : ∀ l : List Conn,
      ((l.map (fun c => notifyWrites c (formatText text args))).flatten =
        (l.filter (fun c => c.alive)).map
          (fun c => (c.cid, formatText text args))) := by
    intro l
    induction l with
    | nil => rfl
    | cons c rest ih =>
      rw [List.map_cons, List.flatten_cons, ih, List.filter_cons]
      by_cases h : c.alive
      · simp [notifyWrites, h]
      · simp [notifyWrites, h]
  refine ⟨rfl, hflat conns, ?_⟩
  intro c hc hal
  rw [show (broadcast conns text args).2 =
    (conns.filter (fun c => c.alive)).map
      (fun c => (c.cid, formatText text args)) from hflat conns]
  exact List.mem_map.mpr ⟨c, List.mem_filter.mpr ⟨hc, by simp [hal]⟩, rfl⟩

/-- C9 witness: the statement at a three-connection list whose middle
connection has disconnected — the two live connections both receive
the once-formatted text. -/
theorem broadcast_delivery_witness :
    (⟨3, true⟩ : Conn) ∈ [(⟨1, true⟩ : Conn), ⟨2, false⟩, ⟨3, true⟩] ∧
    (3, formatText "hi %s" ["all"]) ∈
      (broadcast [(⟨1, true⟩ : Conn), ⟨2, false⟩, ⟨3, true⟩] "hi %s" ["all"]).2 :=
  ⟨by decide,
   (broadcast_delivery [⟨1, true⟩, ⟨2, false⟩, ⟨3, true⟩] "hi %s" ["all"]).2.2
     ⟨3, true⟩ (by decide) rfl⟩

/-- C8 witness: the statement at a two-candidate list whose first
candidate is allowed but whose pattern rejects the arguments. -/
theorem pattern_mismatch_shortcircuit_witness :
    parserLoop
      [(⟨["look"], "Look around.", "Just look.", true, some false,
          Behavior.normal⟩ : PCommand),
       (⟨["look"], "Other look.", "More help.", true, none,
          Behavior.normal⟩ : PCommand)] 0 0 = [Event.explainE 0] ∧
    Event.huhE ∉ parserLoop
      [(⟨["look"], "Look around.", "Just look.", true, some false,
          Behavior.normal⟩ : PCommand),
       (⟨["look"], "Other look.", "More help.", true, none,
          Behavior.normal⟩ : PCommand)] 0 0 ∧
    "Look around." ∈ parserExplain [] " "
      (⟨["look"], "Look around.", "Just look.", true, some false,
        Behavior.normal⟩ : PCommand) ∧
    "Just look." ∈ parserExplain [] " "
      (⟨["look"], "Look around.", "Just look.", true, some false,
        Behavior.normal⟩ : PCommand) :=
  pattern_mismatch_shortcircuit _ _ 0 0 [] " " rfl rfl

/-- Helper: a text that `int(...)` accepts is not the dollar sign. -/
theorem pyInt_ne_dollar {t : String} {j : Int} (h : pyInt t = some j) :
    t ≠ "$" := by
  intro he
  rw [he, (by decide : pyInt "$" = none)] at h
  exact Option.noConfusion h

/-- Helper: `Menu.match` on accepted integer input is Python list
subscription of `items` at the (conditionally decremented) value, with
`IndexError` falling through to the prefix path. -/
theorem menuMatch_int_step (items : List String) (raw : String) (num : Int)
    (h : pyInt (pyLower raw) = some num) :
    menuMatch items raw =
      (match pyIdx items.length (if 0 < num then num - 1 else num) with
        | some j => MenuOutcome.selected j
        | none => menuPrefixResolve items (pyLower raw)) := by
  unfold menuMatch menuMatchText
  rw [if_neg (pyInt_ne_dollar h), h]

/-- C4 (amended): integer input to `Menu.match` follows Python list
subscription on `self.items` after decrementing only strictly positive
values: an integer n with 1 ≤ n ≤ len selects `items[n-1]`; the input
0 selects the first item (it is not decremented and indexes position
0); a negative integer -k with 1 ≤ k ≤ len selects the k-th item from
the end; and only an integer outside [-len, len] raises `IndexError`
and falls through to the prefix-matching path (whose no-match branch
invokes the `no_matches` hook). -/
theorem menu_int_selection :
    ∀ (items : List String) (raw : String),
      (∀ n : Nat, pyInt (pyLower raw) = some (n : Int) → 1 ≤ n →
        n ≤ items.length →
        menuMatch items raw = MenuOutcome.selected (n - 1)) ∧
      (pyInt (pyLower raw) = some 0 → items ≠ [] →
        menuMatch items raw = MenuOutcome.selected 0) ∧
      (∀ k : Nat, pyInt (pyLower raw) = some (-(k : Int)) → 1 ≤ k →
        k ≤ items.length →
        menuMatch items raw = MenuOutcome.selected (items.length - k)) ∧
      (∀ j : Int, pyInt (pyLower raw) = some j →
        ((items.length : Int) < j ∨ j < -(items.length : Int)) →
        menuMatch items raw = menuPrefixResolve items (pyLower raw)) := by
  intro items raw
  refine ⟨?_, ?_, ?_, ?_⟩
  · intro n hn h1 h2
    rw [menuMatch_int_step items raw _ hn,
      if_pos (by omega : (0 : Int) < (n : Int))]
    have hidx : pyIdx items.length ((n : Int) - 1) = some (n - 1) := by
      unfold pyIdx
      rw [if_pos (by omega : (0 : Int) ≤ (n : Int) - 1),
        (by omega : ((n : Int) - 1).toNat = n - 1), if_pos (by omega)]
    rw [hidx]
  · intro hn hitems
    rw [menuMatch_int_step items raw _ hn,
      if_neg (by omega : ¬ (0 : Int) < 0)]
    have hidx : pyIdx items.length 0 = some 0 := by
      unfold pyIdx
      rw [if_pos (by omega : (0 : Int) ≤ 0),
        (by omega : (0 : Int).toNat = 0),
        if_pos (List.length_pos.mpr hitems)]
    rw [hidx]
  · intro k hk h1 h2
    rw [menuMatch_int_step items raw _ hk,
      if_neg (by omega : ¬ (0 : Int) < -(k : Int))]
    have hidx : pyIdx items.length (-(k : Int)) = some (items.length - k) := by
      unfold pyIdx
      rw [if_neg (by omega : ¬ (0 : Int) ≤ -(k : Int)),
        (by omega : (-(-(k : Int))).toNat = k), if_pos h2]
    rw [hidx]
  · intro j hj hout
    rw [menuMatch_int_step items raw _ hj]
    rcases hout with hgt | hlt
    · rw [if_pos (by omega : (0 : Int) < j)]
      have hidx : pyIdx items.length (j - 1) = none := by
        unfold pyIdx
        rw [if_pos (by omega : (0 : Int) ≤ j - 1), if_neg (by omega)]
      rw [hidx]
    · rw [if_neg (by omega : ¬ (0 : Int) < j)]
      have hidx : pyIdx items.length j = none := by
        unfold pyIdx
        rw [if_neg (by omega : ¬ (0 : Int) ≤ j), if_neg (by omega)]
      rw [hidx]

/-- C4 witness: the amended statement on the example menu — input 2
selects the second item. -/
theorem menu_int_selection_witness :
    pyInt (pyLower "2") = some ((2 : Nat) : Int) ∧
    menuMatch exItems "2" = MenuOutcome.selected 1 :=
  ⟨by decide,
   (menu_int_selection exItems "2").1 2 (by decide) (by decide) (by decide)⟩

/-- C5: on a nonempty menu the input dollar sign selects the last
item; non-numeric input whose lowering is a prefix of exactly one
item's lowered label selects that item; and non-numeric input whose
lowering is a prefix of two or more labels invokes the
`multiple_matches` hook with exactly the ambiguous candidates, in
order, selecting no item. -/
theorem menu_text_selection :
    ∀ (items : List String) (raw : String),
      (items ≠ [] →
        menuMatch items "$" = MenuOutcome.selected (items.length - 1)) ∧
      (∀ j : Nat, pyInt (pyLower raw) = none → pyLower raw ≠ "$" →
        prefixMatchIdxs items (pyLower raw) = [j] →
        menuMatch items raw = MenuOutcome.selected j) ∧
      (∀ js : List Nat, pyInt (pyLower raw) = none → pyLower raw ≠ "$" →
        prefixMatchIdxs items (pyLower raw) = js → 2 ≤ js.length →
        menuMatch items raw = MenuOutcome.multipleMatches js) := by
  intro items raw
  refine ⟨?_, ?_, ?_⟩
  · intro hitems
    unfold menuMatch menuMatchText
    rw [(by decide : pyLower "$" = "$"), if_pos rfl]
    rcases items with _ | ⟨a, l⟩
    · exact absurd rfl hitems
    · simp
  · intro j hint hne hpre
    unfold menuMatch menuMatchText menuPrefixResolve
    rw [if_neg hne, hint, hpre]
  · intro js hint hne hpre h2
    unfold menuMatch menuMatchText menuPrefixResolve
    rw [if_neg hne, hint, hpre]
    rcases js with _ | ⟨a, _ | ⟨b, rest⟩⟩
    · simp at h2
    · simp at h2
    · rfl

/-- C5 witness: the statement on the example menu (input f i r s t
uniquely selects the first item) and on a menu with a shared prefix
(input t h i n g matches both items and is reported ambiguous). -/
theorem menu_text_selection_witness :
    menuMatch exItems "$" = MenuOutcome.selected 2 ∧
    menuMatch exItems "first" = MenuOutcome.selected 0 ∧
    menuMatch ["thing one", "thing two"] "thing" =
      MenuOutcome.multipleMatches [0, 1] :=
  ⟨(menu_text_selection exItems "x").1 (by decide),
   (menu_text_selection exItems "first").2.1 0 (by decide) (by decide)
     (by decide),
   (menu_text_selection ["thing one", "thing two"] "thing").2.2 [0, 1]
     (by decide) (by decide) (by decide) (by decide)⟩

end GSB
